import Mathlib

/-!
Verification of the conntrack-driven nginx reconciler (`conntrack.py`).

The source program is embedded shallowly:

* `L3L4` and `FlowEvent` mirror the decoded per-direction tuples and the
  flow-change events.
* `check_flow` mirrors `NginxFlowEventListener.check_flow`, with Python
  exceptions (`ValueError` from `ipaddress.ip_network` on an unparseable
  address, `TypeError` from `is_subnet_of` on a version mismatch) modelled
  as `none : Option Bool`.
* IPv4 addresses travel as strings, exactly as in the source; `parseIPv4`
  models Python's dotted-quad parsing performed by
  `ipaddress.ip_network(addr + "/32")`: four decimal octets, each at most
  three digits, no leading zeros, value at most 255.
* The flow table (`Table`) is an insertion-ordered association list,
  mirroring Python dict semantics: updating an existing key keeps its
  position, inserting appends, deleting removes.
* `genLoop` mirrors the loop body of `generate_nginx_conf`, threading the
  listener state (`RenderState`); exceptions (a missing `l4_dport` or
  `l4_sport` attribute) are modelled as `none`.
* `commit` models the write-temp/rename/spawn sequence of
  `flow_table_updated` over an explicit file-system map, with fault
  injection parameters standing for OS failures.
-/

/-- One direction of a tracked flow, as decoded by `L3L4.__init__`.
The port fields are absent (`none`) when the XML record has no
`sport`/`dport` elements. -/
structure L3L4 where
  l3_proto : String
  l3_src : String
  l3_dst : String
  l4_proto : String
  l4_sport : Option String
  l4_dport : Option String
deriving DecidableEq, Repr

/-- One flow-change event, as decoded by `FlowEvent.__init__`. -/
structure FlowEvent where
  id : String
  type : String
  original : L3L4
  reply : L3L4
deriving DecidableEq, Repr

/-- The data of a Python `IPv4Network`/`IPv6Network` object that
`is_subnet_of` consults: its version and its first and last addresses. -/
structure IPNetwork where
  version : Nat
  network_address : Nat
  broadcast_address : Nat
deriving DecidableEq, Repr

/-- Splits a character list at every dot, mirroring the grouping performed
by Python's dotted-quad parser. -/
def splitDots : List Char → List (List Char)
  | [] => [[]]
  | c :: rest =>
    match splitDots rest with
    | [] => [[c]]
    | g :: gs => if c = '.' then [] :: g :: gs else (c :: g) :: gs

/-- Parses one decimal octet as `ipaddress` does: one to three digits,
no leading zero (except "0" itself), value at most 255. -/
def parseOctet (cs : List Char) : Option Nat :=
  if cs.length = 0 ∨ 3 < cs.length then none
  else if ¬ cs.all Char.isDigit then none
  else if 1 < cs.length ∧ cs.head? = some '0' then none
  else
    let v := cs.foldl (fun a c => a * 10 + (c.toNat - 48)) 0
    if v ≤ 255 then some v else none

/-- Parses a dotted-quad IPv4 address string to its 32-bit numeric value,
modelling the parsing done by `ipaddress.ip_network`; `none` models the
`ValueError` raised on malformed input. -/
def parseIPv4 (s : String) : Option Nat :=
  match splitDots s.data with
  | [g1, g2, g3, g4] =>
    match parseOctet g1, parseOctet g2, parseOctet g3, parseOctet g4 with
    | some a, some b, some c, some d => some (((a * 256 + b) * 256 + c) * 256 + d)
    | _, _, _, _ => none
  | _ => none

/-- Models `ipaddress.ip_network(addr + "/32")`: the single-host IPv4
network of `addr`, whose first and last addresses both equal `addr`. -/
def ip_network_host32 (s : String) : Option IPNetwork :=
  (parseIPv4 s).map (fun a => ⟨4, a, a⟩)

/-- The module-level `is_subnet_of(a, b)` helper: `none` models the
`TypeError` raised when the two networks have different IP versions;
otherwise true iff `b.network_address <= a.network_address` and
`b.broadcast_address >= a.broadcast_address`. -/
def is_subnet_of (a b : IPNetwork) : Option Bool :=
  if a.version ≠ b.version then none
  else some (decide (b.network_address ≤ a.network_address ∧
                     b.broadcast_address ≥ a.broadcast_address))

/-- The `for network in self.allowed_networks` loop of `check_flow`:
returns at the first allow-list network containing `h`; an exception from
`is_subnet_of` propagates. -/
def anySubnet (h : IPNetwork) : List IPNetwork → Option Bool
  | [] => some false
  | n :: rest =>
    match is_subnet_of h n with
    | none => none
    | some true => some true
    | some false => anySubnet h rest

/-- `NginxFlowEventListener.check_flow`: the eligibility predicate.
`none` models a raised exception (unparseable source address, or an IP
version mismatch inside `is_subnet_of`). -/
def check_flow (allowed : List IPNetwork) (e : FlowEvent) : Option Bool :=
  if e.original.l3_proto ≠ "ipv4" ∨ e.original.l4_proto ∉ (["tcp", "udp"] : List String)
      ∨ e.reply.l3_proto ≠ "ipv4" ∨ e.reply.l4_proto ∉ (["tcp", "udp"] : List String) then
    some false
  else if e.original.l4_proto ≠ e.reply.l4_proto then
    some false
  else if e.original.l3_src = e.reply.l3_dst then
    some false
  else
    match ip_network_host32 e.original.l3_src with
    | none => none
    | some h => anySubnet h allowed

lemma anySubnet_host32 (a : Nat) (A : List IPNetwork) (hver : ∀ n ∈ A, n.version = 4) :
    anySubnet ⟨4, a, a⟩ A = some true ↔
      ∃ n ∈ A, n.network_address ≤ a ∧ a ≤ n.broadcast_address := by
  induction A with
  | nil => simp [anySubnet]
  | cons n rest ih =>
    have hn : n.version = 4 := hver n (List.mem_cons_self _ _)
    have hrest : ∀ m ∈ rest, m.version = 4 := fun m hm => hver m (List.mem_cons_of_mem _ hm)
    by_cases hc : n.network_address ≤ a ∧ a ≤ n.broadcast_address
    · simp [anySubnet, is_subnet_of, hn, hc]
    · simp only [anySubnet, is_subnet_of, hn]
      simp only [show ¬((4 : Nat) ≠ 4) from by simp, if_false]
      have : decide (n.network_address ≤ a ∧ n.broadcast_address ≥ a) = false := by
        simpa [ge_iff_le] using hc
      rw [this]
      simp only [List.mem_cons]
      rw [ih hrest]
      constructor
      · rintro ⟨m, hm, hb⟩
        exact ⟨m, Or.inr hm, hb⟩
      · rintro ⟨m, hm | hm, hb⟩
        · exact absurd (hm ▸ hb) hc
        · exact ⟨m, hm, hb⟩

/-- C1: `check_flow` returns true iff both directions are ipv4, both
transports are in {tcp, udp} and equal, the original source differs from
the reply destination, and the /32 single-host network of the original
source is contained (boundaries included) in at least one allow-list
network.  Containment in the `∃` conjunct is the inclusive range check of
`is_subnet_of`, so the first (network) and last (broadcast) addresses of a
listed prefix are eligible and addresses outside every prefix are not. -/
theorem exposable_iff (A : List IPNetwork) (e : FlowEvent)
    (hver : ∀ n ∈ A, n.version = 4) :
    check_flow A e = some true ↔
      (e.original.l3_proto = "ipv4" ∧ e.reply.l3_proto = "ipv4"
       ∧ e.original.l4_proto ∈ (["tcp", "udp"] : List String)
       ∧ e.reply.l4_proto ∈ (["tcp", "udp"] : List String)
       ∧ e.original.l4_proto = e.reply.l4_proto
       ∧ e.original.l3_src ≠ e.reply.l3_dst
       ∧ ∃ a, parseIPv4 e.original.l3_src = some a
           ∧ ∃ n ∈ A, n.network_address ≤ a ∧ a ≤ n.broadcast_address) := by
  unfold check_flow
  split_ifs with h1 h2 h3
  · constructor
    · intro hc; exact absurd hc (by simp)
    · rintro ⟨ho3, hr3, ho4, hr4, -, -, -⟩
      rcases h1 with h | h | h | h
      · exact absurd ho3 h
      · exact absurd ho4 h
      · exact absurd hr3 h
      · exact absurd hr4 h
  · constructor
    · intro hc; exact absurd hc (by simp)
    · rintro ⟨-, -, -, -, heq, -, -⟩
      exact absurd heq h2
  · constructor
    · intro hc; exact absurd hc (by simp)
    · rintro ⟨-, -, -, -, -, hne, -⟩
      exact absurd h3 hne
  · push_neg at h1
    obtain ⟨ho3, ho4, hr3, hr4⟩ := h1
    push_neg at h2
    cases hp : parseIPv4 e.original.l3_src with
    | none =>
      simp only [ip_network_host32, hp, Option.map_none']
      constructor
      · intro hc; exact absurd hc (by simp)
      · rintro ⟨-, -, -, -, -, -, a, ha, -⟩
        exact absurd ha (by simp)
    | some a =>
      simp only [ip_network_host32, hp, Option.map_some']
      rw [anySubnet_host32 a A hver]
      constructor
      · rintro ⟨n, hn, hb⟩
        exact ⟨ho3, hr3, ho4, hr4, h2, h3, a, rfl, n, hn, hb⟩
      · rintro ⟨-, -, -, -, -, -, a', ha', n, hn, hb⟩
        have : a' = a := (Option.some.inj ha').symm
        exact ⟨n, hn, this ▸ hb⟩

/-- An allow-listed /24 used by several concrete checks below. -/
def allowNet24 : IPNetwork := ⟨4, 167772160, 167772415⟩

/-- A boundary event: the original source 10.0.0.0 is exactly the network
address of the allow-listed prefix 10.0.0.0/24. -/
def boundaryEvent : FlowEvent :=
  ⟨"9", "new",
   ⟨"ipv4", "10.0.0.0", "203.0.113.9", "tcp", some "51000", some "80"⟩,
   ⟨"ipv4", "203.0.113.9", "198.51.100.1", "tcp", some "80", some "51000"⟩⟩

/-- Witness for C1 at a concrete boundary input: the first address of the
allow-listed prefix is eligible. -/
theorem exposable_iff_witness : check_flow [allowNet24] boundaryEvent = some true := by
  exact (exposable_iff [allowNet24] boundaryEvent (by decide)).mpr
    ⟨rfl, rfl, by decide, by decide, rfl, by decide,
     167772160, by decide, allowNet24, by decide, by decide, by decide⟩

/-- The flow table: an insertion-ordered association list from flow id to
the most recent event, mirroring Python dict iteration order. -/
abbrev Table := List (String × FlowEvent)

/-- Python dict assignment `flow_table[flow_id] = event`: replaces in
place when the key exists, appends otherwise. -/
def upsert : Table → String → FlowEvent → Table
  | [], k, v => [(k, v)]
  | (k', v') :: rest, k, v =>
    if k' = k then (k, v) :: rest else (k', v') :: upsert rest k v

/-- Python dict deletion `del flow_table[flow_id]`. -/
def removeKey : Table → String → Table
  | [], _ => []
  | (k', v) :: rest, k =>
    if k' = k then removeKey rest k else (k', v) :: removeKey rest k

/-- Python dict lookup `flow_table[key]`. -/
def lookupTable : Table → String → Option FlowEvent
  | [], _ => none
  | (k', v) :: rest, k => if k' = k then some v else lookupTable rest k

/-- Python membership test `flow_id in flow_table`. -/
def containsKey (tbl : Table) (k : String) : Bool :=
  (lookupTable tbl k).isSome

/-- `FlowEventListener.handle_event`: for new/update, upsert and notify
(`flow_table_updated(event)`); for destroy, remove and notify only when
the id is present; otherwise do nothing.  The second component is the
notification argument (`none` when `flow_table_updated` is not called). -/
def handle_event (tbl : Table) (e : FlowEvent) : Table × Option FlowEvent :=
  if e.type = "new" ∨ e.type = "update" then (upsert tbl e.id e, some e)
  else if e.type = "destroy" then
    if containsKey tbl e.id then (removeKey tbl e.id, some e) else (tbl, none)
  else (tbl, none)

/-- Replays a sequence of events against the initially empty table. -/
def applyEvents (es : List FlowEvent) : Table :=
  es.foldl (fun t e => (handle_event t e).1) []

/-- Modelled from the spec: scanning the event history most-recent-first,
the first new/update/destroy event for an identifier decides its table
entry (new/update keeps that event, destroy drops the identifier). -/
def recentStatus : List FlowEvent → String → Option FlowEvent
  | [], _ => none
  | e :: rest, k =>
    if e.id = k ∧ (e.type = "new" ∨ e.type = "update") then some e
    else if e.id = k ∧ e.type = "destroy" then none
    else recentStatus rest k

/-- Modelled from the spec: the table content the replay invariant
describes, computed by scanning the history from the most recent event. -/
def specTableLookup (es : List FlowEvent) (k : String) : Option FlowEvent :=
  recentStatus es.reverse k

lemma lookup_upsert (t : Table) (k k' : String) (v : FlowEvent) :
    lookupTable (upsert t k v) k' = if k = k' then some v else lookupTable t k' := by
  induction t with
  | nil => simp [upsert, lookupTable]
  | cons p rest ih =>
    obtain ⟨k'', v''⟩ := p
    by_cases h : k'' = k
    · subst h
      simp only [upsert, if_pos rfl, lookupTable]
      by_cases hk : k'' = k'
      · simp [hk]
      · simp [hk, lookupTable]
    · simp only [upsert, if_neg h, lookupTable]
      by_cases hk : k'' = k'
      · subst hk
        have : ¬ (k = k'') := fun hh => h hh.symm
        simp [this]
      · simp [hk, ih]

lemma lookup_removeKey (t : Table) (k k' : String) :
    lookupTable (removeKey t k) k' = if k = k' then none else lookupTable t k' := by
  induction t with
  | nil => simp [removeKey, lookupTable]
  | cons p rest ih =>
    obtain ⟨k'', v''⟩ := p
    by_cases h : k'' = k
    · subst h
      simp only [removeKey, if_pos rfl]
      by_cases hk : k'' = k'
      · simp [hk] at *
        simpa using ih
      · simp [hk, ih, lookupTable]
    · simp only [removeKey, if_neg h, lookupTable]
      by_cases hk : k'' = k'
      · subst hk
        have : ¬ (k = k'') := fun hh => h hh.symm
        simp [this, lookupTable]
      · simp [hk, ih]

lemma containsKey_false_lookup {t : Table} {k : String}
    (h : containsKey t k = false) : lookupTable t k = none := by
  unfold containsKey at h
  exact Option.not_isSome_iff_eq_none.mp (by simp [h])

/-- C2: replaying any event sequence against the empty table yields, for
every identifier, exactly the most recent new/update event not followed by
a later destroy (the spec-side `specTableLookup`); destroying an absent
identifier leaves the table unchanged without notification; events of any
other kind leave the table unchanged without notification. -/
theorem flow_table_replay (es : List FlowEvent) (k : String) (tbl : Table) (e : FlowEvent) :
    lookupTable (applyEvents es) k = specTableLookup es k
    ∧ (e.type = "destroy" → containsKey tbl e.id = false →
        handle_event tbl e = (tbl, none))
    ∧ (e.type ∉ (["new", "update", "destroy"] : List String) →
        handle_event tbl e = (tbl, none)) := by
  refine ⟨?_, ?_, ?_⟩
  · induction es using List.reverseRecOn with
    | nil => rfl
    | append_singleton es e' ih =>
      have hfold : applyEvents (es ++ [e']) = (handle_event (applyEvents es) e').1 := by
        simp [applyEvents, List.foldl_append]
      have hrev : specTableLookup (es ++ [e']) k = recentStatus (e' :: es.reverse) k := by
        simp [specTableLookup, List.reverse_append]
      rw [hfold, hrev]
      unfold handle_event
      by_cases hnu : e'.type = "new" ∨ e'.type = "update"
      · simp only [if_pos hnu]
        rw [lookup_upsert]
        by_cases hk : e'.id = k
        · simp [recentStatus, hk, hnu]
        · have : ¬ (e'.id = k ∧ (e'.type = "new" ∨ e'.type = "update")) := fun hh => hk hh.1
          have h2 : ¬ (e'.id = k ∧ e'.type = "destroy") := fun hh => hk hh.1
          simp only [recentStatus, if_neg this, if_neg h2]
          rw [if_neg hk]
          exact ih
      · simp only [if_neg hnu]
        by_cases hd : e'.type = "destroy"
        · simp only [if_pos hd]
          by_cases hmem : containsKey (applyEvents es) e'.id
          · simp only [if_pos hmem]
            rw [lookup_removeKey]
            by_cases hk : e'.id = k
            · have : ¬ (e'.id = k ∧ (e'.type = "new" ∨ e'.type = "update")) := by
                rintro ⟨-, h | h⟩ <;> exact hnu (by simp [hd] at h ⊢)
              simp [recentStatus, hk, hd, hnu]
            · have h1 : ¬ (e'.id = k ∧ (e'.type = "new" ∨ e'.type = "update")) :=
                fun hh => hk hh.1
              have h2 : ¬ (e'.id = k ∧ e'.type = "destroy") := fun hh => hk hh.1
              simp only [recentStatus, if_neg h1, if_neg h2]
              rw [if_neg hk]
              exact ih
          · simp only [if_neg hmem]
            by_cases hk : e'.id = k
            · have h1 : ¬ (e'.id = k ∧ (e'.type = "new" ∨ e'.type = "update")) :=
                fun hh => hnu hh.2
              simp only [recentStatus, if_neg h1, if_pos (And.intro hk hd)]
              rw [← hk]
              exact containsKey_false_lookup (by simpa using hmem)
            · have h1 : ¬ (e'.id = k ∧ (e'.type = "new" ∨ e'.type = "update")) :=
                fun hh => hk hh.1
              have h2 : ¬ (e'.id = k ∧ e'.type = "destroy") := fun hh => hk hh.1
              simp only [recentStatus, if_neg h1, if_neg h2]
              exact ih
        · simp only [if_neg hd]
          have h1 : ¬ (e'.id = k ∧ (e'.type = "new" ∨ e'.type = "update")) :=
            fun hh => hnu hh.2
          have h2 : ¬ (e'.id = k ∧ e'.type = "destroy") := fun hh => hd hh.2
          simp only [recentStatus, if_neg h1, if_neg h2]
          exact ih
  · intro hd hmem
    have hnu : ¬ (e.type = "new" ∨ e.type = "update") := by
      rintro (h | h) <;> simp [h] at hd
    simp [handle_event, hnu, hd, hmem]
  · intro hother
    simp only [List.mem_cons, List.mem_singleton] at hother
    push_neg at hother
    obtain ⟨hn, hu, hd⟩ := hother
    simp [handle_event, hn, hu, hd]

/-- Two concrete events used by the C2 witness. -/
def newEvent7 : FlowEvent :=
  ⟨"7", "new",
   ⟨"ipv4", "10.0.0.5", "203.0.113.9", "tcp", some "51000", some "80"⟩,
   ⟨"ipv4", "203.0.113.9", "198.51.100.1", "tcp", some "80", some "51000"⟩⟩

/-- A destroy event for flow id 7 (same directions as `newEvent7`). -/
def destroyEvent7 : FlowEvent :=
  ⟨"7", "destroy", newEvent7.original, newEvent7.reply⟩

/-- Witness for C2: replaying [new 7, destroy 7] leaves id 7 absent as the
spec lookup computes, and destroying an id absent from the empty table is
a silent no-op. -/
theorem flow_table_replay_witness :
    lookupTable (applyEvents [newEvent7, destroyEvent7]) "7" =
      specTableLookup [newEvent7, destroyEvent7] "7"
    ∧ handle_event [] destroyEvent7 = ([], none) := by
  have h := flow_table_replay [newEvent7, destroyEvent7] "7" [] destroyEvent7
  exact ⟨h.1, h.2.1 rfl (by decide)⟩

/-- The format template
`server {{ listen {listen_addr}; proxy_pass {dest_addr}; {additional_conf} }}\t# flowid={id}\n`
of `generate_nginx_conf`, instantiated. -/
def forwardLine (listen_addr dest_addr additional_conf flowid : String) : String :=
  "server \x7b listen " ++ listen_addr ++ "; proxy_pass " ++ dest_addr ++ "; "
    ++ additional_conf ++ " \x7d\t# flowid=" ++ flowid ++ "\n"

/-- The listener object state visible to `generate_nginx_conf`: the flow
table attribute, plus the two locals of the function (`listened_addresses`
and `lines`), reset at every call. -/
structure RenderState where
  flow_table : Table
  listened_addresses : List String
  lines : List String
deriving DecidableEq, Repr

/-- The `for flow_id, flow in self.flow_table.items()` loop body of
`generate_nginx_conf`.  `none` models a raised exception: `check_flow`
raising, or an `AttributeError` on a missing `l4_dport`/`l4_sport`.
Note the order of operations mirrors the source: the listen address
(which reads `l4_dport`) and the dedup check come before the udp suffix
and before `l4_sport` is read. -/
def genLoop (A : List IPNetwork) (extra : String) : Table → RenderState → Option RenderState
  | [], s => some s
  | (i, f) :: rest, s =>
    match check_flow A f with
    | none => none
    | some false => genLoop A extra rest s
    | some true =>
      match f.reply.l4_dport with
      | none => none
      | some dport =>
        let la := f.reply.l3_dst ++ ":" ++ dport
        if s.listened_addresses.contains la then genLoop A extra rest s
        else
          match f.original.l4_sport with
          | none => none
          | some sport =>
            genLoop A extra rest
              ⟨s.flow_table, la :: s.listened_addresses,
               s.lines ++ [forwardLine
                 (if f.reply.l4_proto = "udp" then la ++ " udp" else la)
                 (f.original.l3_src ++ ":" ++ sport) extra i]⟩

/-- `NginxFlowEventListener.generate_nginx_conf`: runs the loop over the
current flow table with both locals freshly initialised, and joins the
collected lines.  Returns the text and the listener state afterwards. -/
def generate_nginx_conf (A : List IPNetwork) (extra : String) (s : RenderState) :
    Option (String × RenderState) :=
  match genLoop A extra s.flow_table { s with listened_addresses := [], lines := [] } with
  | none => none
  | some s2 => some (String.join s2.lines, s2)

/-- The rendered text for a given table content (the listener state seen
through its only persistent attribute). -/
def generate_conf_of_table (A : List IPNetwork) (extra : String) (tbl : Table) :
    Option String :=
  (generate_nginx_conf A extra ⟨tbl, [], []⟩).map Prod.fst

/-- C5: the spec's Scenario 1.  Applying the `new` event for flow id 7
(original ipv4/tcp 10.0.0.5:51000 → 203.0.113.9:80, reply 203.0.113.9:80
→ 198.51.100.1:51000) under allow-list [10.0.0.0/24] makes the flow
eligible, and rendering the one-entry table emits exactly one block with
listen endpoint 198.51.100.1:51000 (no udp marker), proxy_pass
10.0.0.5:51000 and trailing comment flowid=7. -/
theorem scene_one_render :
    check_flow [allowNet24] newEvent7 = some true
    ∧ generate_conf_of_table [allowNet24] "" (applyEvents [newEvent7]) =
        some "server \x7b listen 198.51.100.1:51000; proxy_pass 10.0.0.5:51000;  \x7d\t# flowid=7\n" := by
  constructor
  · decide
  · decide

/-- The render-and-commit trigger: `handle_event` calls
`flow_table_updated(event)` exactly when the table mutated, and
`NginxFlowEventListener.flow_table_updated` proceeds to render and commit
exactly when `check_flow(event)` returns true (a false result returns
early; a raised exception also prevents the render). -/
def rendersAfter (A : List IPNetwork) (tbl : Table) (e : FlowEvent) : Bool :=
  match (handle_event tbl e).2 with
  | some ev => check_flow A ev = some true
  | none => false

/-- C4: a render-and-commit happens immediately after applying an event
iff the event mutated the table (kind new/update, or destroy of a present
identifier) and that same triggering event passes `check_flow`.  In
particular an ineligible destroy never re-renders, even if the destroyed
flow contributed to the previously committed configuration. -/
theorem render_trigger_iff (A : List IPNetwork) (tbl : Table) (e : FlowEvent) :
    rendersAfter A tbl e = true ↔
      (((e.type = "new" ∨ e.type = "update")
        ∨ (e.type = "destroy" ∧ containsKey tbl e.id = true))
       ∧ check_flow A e = some true) := by
  unfold rendersAfter handle_event
  by_cases hnu : e.type = "new" ∨ e.type = "update"
  · simp [hnu]
  · simp only [if_neg hnu]
    by_cases hd : e.type = "destroy"
    · simp only [if_pos hd]
      by_cases hmem : containsKey tbl e.id
      · simp [hmem, hnu, hd]
      · simp [hmem, hnu, hd]
    · simp [hd, hnu]

/-- Witness for C4: the concrete new event for flow 7 mutates the empty
table and is eligible, so it triggers a render. -/
theorem render_trigger_iff_witness : rendersAfter [allowNet24] [] newEvent7 = true := by
  exact (render_trigger_iff [allowNet24] [] newEvent7).mpr
    ⟨Or.inl (Or.inl rfl), by decide⟩

lemma genLoop_flow_table (A : List IPNetwork) (extra : String) :
    ∀ (items : Table) (s s' : RenderState),
      genLoop A extra items s = some s' → s'.flow_table = s.flow_table := by
  intro items
  induction items with
  | nil =>
    intro s s' h
    simp only [genLoop, Option.some.injEq] at h
    rw [← h]
  | cons p rest ih =>
    intro s s' h
    obtain ⟨i, f⟩ := p
    simp only [genLoop] at h
    cases hc : check_flow A f with
    | none => rw [hc] at h; exact absurd h (by simp)
    | some b =>
      rw [hc] at h
      cases b with
      | false => exact ih s s' h
      | true =>
        cases hdp : f.reply.l4_dport with
        | none => rw [hdp] at h; exact absurd h (by simp)
        | some dport =>
          rw [hdp] at h
          simp only at h
          by_cases hmem : s.listened_addresses.contains (f.reply.l3_dst ++ ":" ++ dport)
          · rw [if_pos hmem] at h
            exact ih s s' h
          · rw [if_neg hmem] at h
            cases hsp : f.original.l4_sport with
            | none => rw [hsp] at h; exact absurd h (by simp)
            | some sport =>
              rw [hsp] at h
              simp only at h
              have h2 := ih _ s' h
              exact h2

/-- C6: rendering is deterministic and idempotent, and does not mutate the
table.  If a call to `generate_nginx_conf` returns text `t` and leaves the
listener in state `s'`, then the flow table is unchanged and an immediate
second call returns the byte-identical text `t` (and the same state). -/
theorem render_idempotent (A : List IPNetwork) (extra : String) (s : RenderState)
    (t : String) (s' : RenderState)
    (h : generate_nginx_conf A extra s = some (t, s')) :
    s'.flow_table = s.flow_table ∧ generate_nginx_conf A extra s' = some (t, s') := by
  unfold generate_nginx_conf at h ⊢
  cases hg : genLoop A extra s.flow_table { s with listened_addresses := [], lines := [] } with
  | none => rw [hg] at h; exact absurd h (by simp)
  | some s2 =>
    rw [hg] at h
    simp only [Option.some.injEq, Prod.mk.injEq] at h
    obtain ⟨ht, hs⟩ := h
    subst hs
    have hft : s2.flow_table = s.flow_table := by
      have h2 := genLoop_flow_table A extra s.flow_table _ s2 hg
      exact h2
    refine ⟨hft, ?_⟩
    rw [hft, hg]
    simpa using ht

/-- Witness for C6: a concrete render over the one-entry table for flow 7
is idempotent and leaves the table untouched. -/
theorem render_idempotent_witness :
    (⟨[("7", newEvent7)], ["198.51.100.1:51000"],
      ["server \x7b listen 198.51.100.1:51000; proxy_pass 10.0.0.5:51000;  \x7d\t# flowid=7\n"]⟩
        : RenderState).flow_table = ([("7", newEvent7)] : Table)
    ∧ generate_nginx_conf [allowNet24] ""
        ⟨[("7", newEvent7)], ["198.51.100.1:51000"],
         ["server \x7b listen 198.51.100.1:51000; proxy_pass 10.0.0.5:51000;  \x7d\t# flowid=7\n"]⟩ =
        some ("server \x7b listen 198.51.100.1:51000; proxy_pass 10.0.0.5:51000;  \x7d\t# flowid=7\n",
          ⟨[("7", newEvent7)], ["198.51.100.1:51000"],
           ["server \x7b listen 198.51.100.1:51000; proxy_pass 10.0.0.5:51000;  \x7d\t# flowid=7\n"]⟩) := by
  exact render_idempotent [allowNet24] "" ⟨[("7", newEvent7)], [], []⟩ _ _ (by decide)

/-- Modelled from the spec: step 1 of the render algorithm, the eligible
subset of the table in snapshot order. -/
def specEligible (A : List IPNetwork) (tbl : Table) : Table :=
  tbl.filter (fun p => decide (check_flow A p.2 = some true))

/-- Modelled from the spec: the listen endpoint
`reply.destinationAddress : reply.destinationPort` of a flow. -/
def listenEndpoint (f : FlowEvent) : String :=
  f.reply.l3_dst ++ ":" ++ f.reply.l4_dport.getD ""

/-- Modelled from the spec: one emitted configuration block, with the udp
marker appended to the listen directive for udp transports. -/
def specBlock (extra : String) (p : String × FlowEvent) : String :=
  forwardLine
    (if p.2.reply.l4_proto = "udp" then listenEndpoint p.2 ++ " udp" else listenEndpoint p.2)
    (p.2.original.l3_src ++ ":" ++ p.2.original.l4_sport.getD "")
    extra p.1

/-- Modelled from the spec: keep the first flow for each listen endpoint
(the unannotated `address:port` pair), drop later duplicates. -/
def dedupFirst : Table → List String → Table
  | [], _ => []
  | (i, f) :: rest, seen =>
    if seen.contains (listenEndpoint f) then dedupFirst rest seen
    else (i, f) :: dedupFirst rest (listenEndpoint f :: seen)

/-- Modelled from the spec: the full render pipeline — filter eligible,
dedup first-wins on the listen endpoint, emit one block per survivor. -/
def specRender (A : List IPNetwork) (extra : String) (tbl : Table) : String :=
  String.join ((dedupFirst (specEligible A tbl) []).map (specBlock extra))

lemma generate_conf_of_table_eq (A : List IPNetwork) (extra : String) (tbl : Table) :
    generate_conf_of_table A extra tbl =
      (genLoop A extra tbl ⟨tbl, [], []⟩).map (fun s2 => String.join s2.lines) := by
  unfold generate_conf_of_table generate_nginx_conf
  cases hg : genLoop A extra tbl (⟨tbl, [], []⟩ : RenderState) with
  | none => simp [hg]
  | some s2 => simp [hg]

lemma genLoop_render_spec (A : List IPNetwork) (extra : String) :
    ∀ (items : Table) (ft : Table) (seen lines : List String),
      (∀ p ∈ items, check_flow A p.2 ≠ none) →
      (∀ p ∈ items, check_flow A p.2 = some true →
         p.2.reply.l4_dport.isSome = true ∧ p.2.original.l4_sport.isSome = true) →
      ∃ seen', genLoop A extra items ⟨ft, seen, lines⟩ =
        some ⟨ft, seen',
          lines ++ (dedupFirst (specEligible A items) seen).map (specBlock extra)⟩ := by
  intro items
  induction items with
  | nil =>
    intro ft seen lines _ _
    exact ⟨seen, by simp [genLoop, specEligible, dedupFirst]⟩
  | cons p rest ih =>
    intro ft seen lines hok hp
    obtain ⟨i, f⟩ := p
    have hokr : ∀ q ∈ rest, check_flow A q.2 ≠ none :=
      fun q hq => hok q (List.mem_cons_of_mem _ hq)
    have hpr : ∀ q ∈ rest, check_flow A q.2 = some true →
        q.2.reply.l4_dport.isSome = true ∧ q.2.original.l4_sport.isSome = true :=
      fun q hq => hp q (List.mem_cons_of_mem _ hq)
    cases hcf : check_flow A f with
    | none => exact absurd hcf (hok (i, f) (List.mem_cons_self _ _))
    | some b =>
      cases b with
      | false =>
        have hfilt : specEligible A ((i, f) :: rest) = specEligible A rest := by
          simp [specEligible, List.filter_cons, hcf]
        obtain ⟨seen', hrec⟩ := ih ft seen lines hokr hpr
        refine ⟨seen', ?_⟩
        simp only [genLoop, hcf]
        rw [hfilt]
        exact hrec
      | true =>
        obtain ⟨hdps, hsps⟩ := hp (i, f) (List.mem_cons_self _ _) hcf
        simp only at hdps hsps
        obtain ⟨dp, hdp⟩ := Option.isSome_iff_exists.mp hdps
        obtain ⟨sp, hsp⟩ := Option.isSome_iff_exists.mp hsps
        have hla : listenEndpoint f = f.reply.l3_dst ++ ":" ++ dp := by
          simp [listenEndpoint, hdp]
        have hfilt : specEligible A ((i, f) :: rest) = (i, f) :: specEligible A rest := by
          simp [specEligible, List.filter_cons, hcf]
        by_cases hmem : seen.contains (f.reply.l3_dst ++ ":" ++ dp) = true
        · obtain ⟨seen', hrec⟩ := ih ft seen lines hokr hpr
          refine ⟨seen', ?_⟩
          rw [hfilt]
          simp only [genLoop, hcf, hdp, hmem, if_true]
          rw [hrec]
          simp only [dedupFirst, hla, hmem, if_true]
        · have hline : forwardLine
              (if f.reply.l4_proto = "udp" then f.reply.l3_dst ++ ":" ++ dp ++ " udp"
               else f.reply.l3_dst ++ ":" ++ dp)
              (f.original.l3_src ++ ":" ++ sp) extra i = specBlock extra (i, f) := by
            simp [specBlock, hla, hsp]
          obtain ⟨seen', hrec⟩ := ih ft ((f.reply.l3_dst ++ ":" ++ dp) :: seen)
            (lines ++ [specBlock extra (i, f)]) hokr hpr
          refine ⟨seen', ?_⟩
          rw [hfilt]
          simp only [genLoop, hcf, hdp, if_neg hmem, hsp, hline]
          rw [hrec]
          simp only [dedupFirst, hla, if_neg hmem]
          simp [List.append_assoc]

/-- C3 (amended): under the no-exception preconditions (no entry makes
`check_flow` raise; every eligible entry carries both ports), the rendered
text is exactly the spec pipeline: filter eligible, deduplicate first-wins
on the listen endpoint `reply.destinationAddress:reply.destinationPort`
(the udp marker is appended to the emitted listen directive only, after
the dedup check), and emit one block per survivor in snapshot order. -/
theorem render_dedup_first_wins (A : List IPNetwork) (extra : String) (tbl : Table)
    (hok : ∀ p ∈ tbl, check_flow A p.2 ≠ none)
    (hp : ∀ p ∈ tbl, check_flow A p.2 = some true →
        p.2.reply.l4_dport.isSome = true ∧ p.2.original.l4_sport.isSome = true) :
    generate_conf_of_table A extra tbl = some (specRender A extra tbl) := by
  obtain ⟨seen', hgl⟩ := genLoop_render_spec A extra tbl tbl [] [] hok hp
  rw [generate_conf_of_table_eq, hgl]
  simp [specRender]

/-- Two eligible tcp flows colliding on listen endpoint 198.51.100.1:443,
in snapshot order. -/
def collideFirst : FlowEvent :=
  ⟨"1", "new",
   ⟨"ipv4", "10.0.0.5", "203.0.113.9", "tcp", some "51000", some "80"⟩,
   ⟨"ipv4", "203.0.113.9", "198.51.100.1", "tcp", some "80", some "443"⟩⟩

/-- The later colliding flow (same listen endpoint, different internal
source). -/
def collideSecond : FlowEvent :=
  ⟨"2", "new",
   ⟨"ipv4", "10.0.0.6", "203.0.113.9", "tcp", some "52000", some "80"⟩,
   ⟨"ipv4", "203.0.113.9", "198.51.100.1", "tcp", some "80", some "443"⟩⟩

/-- Witness for C3: with the colliding snapshot [collideFirst,
collideSecond], the render equals the spec pipeline (whose dedup emits
only the first flow's block). -/
theorem render_dedup_first_wins_witness :
    generate_conf_of_table [allowNet24] ""
        [("1", collideFirst), ("2", collideSecond)] =
      some (specRender [allowNet24] "" [("1", collideFirst), ("2", collideSecond)]) := by
  exact render_dedup_first_wins [allowNet24] ""
    [("1", collideFirst), ("2", collideSecond)] (by decide) (by decide)

/-- The listen endpoint as claim C3 words it: annotated with the udp
marker when the transport is udp. -/
def annotatedEndpoint (f : FlowEvent) : String :=
  listenEndpoint f ++ (if f.reply.l4_proto = "udp" then " udp" else "")

/-- Deduplication keyed on the annotated listen endpoint, as claim C3
words it. -/
def dedupAnnotatedFirst : Table → List String → Table
  | [], _ => []
  | (i, f) :: rest, seen =>
    if seen.contains (annotatedEndpoint f) then dedupAnnotatedFirst rest seen
    else (i, f) :: dedupAnnotatedFirst rest (annotatedEndpoint f :: seen)

/-- Claim C3's render: dedup on the udp-annotated listen endpoint,
emit one block per survivor. -/
def renderClaimDedup (A : List IPNetwork) (extra : String) (tbl : Table) : String :=
  String.join ((dedupAnnotatedFirst (specEligible A tbl) []).map (specBlock extra))

/-- An eligible udp flow whose reply destination is 198.51.100.1:443. -/
def udpFlow443 : FlowEvent :=
  ⟨"1", "new",
   ⟨"ipv4", "10.0.0.9", "203.0.113.9", "udp", some "5353", some "53"⟩,
   ⟨"ipv4", "203.0.113.9", "198.51.100.1", "udp", some "53", some "443"⟩⟩

/-- An eligible tcp flow on the same 198.51.100.1:443 address and port. -/
def tcpFlow443a : FlowEvent :=
  ⟨"2", "new",
   ⟨"ipv4", "10.0.0.5", "203.0.113.9", "tcp", some "51000", some "80"⟩,
   ⟨"ipv4", "203.0.113.9", "198.51.100.1", "tcp", some "80", some "443"⟩⟩

/-- A second eligible tcp flow on 198.51.100.1:443. -/
def tcpFlow443b : FlowEvent :=
  ⟨"3", "new",
   ⟨"ipv4", "10.0.0.6", "203.0.113.9", "tcp", some "52000", some "80"⟩,
   ⟨"ipv4", "203.0.113.9", "198.51.100.1", "tcp", some "80", some "443"⟩⟩

/-- The snapshot [udp, tcp, tcp] all sharing address:port 198.51.100.1:443. -/
def mixedProtoTable : Table :=
  [("1", udpFlow443), ("2", tcpFlow443a), ("3", tcpFlow443b)]

/-- Counterexample to C3 as stated: the claim keys the dedup on the
udp-annotated listen endpoint, under which the udp flow and the tcp flows
do not collide, so the first tcp flow's block would be emitted.  The code
keys the dedup on the unannotated `address:port` (the udp marker is
appended only after the dedup check), so both tcp flows are dropped and
the output differs from the claim's render. -/
theorem dedup_key_counterexample :
    generate_conf_of_table [allowNet24] "" mixedProtoTable ≠
      some (renderClaimDedup [allowNet24] "" mixedProtoTable) := by
  decide

lemma genLoop_missing_dport (A : List IPNetwork) (extra : String) :
    ∀ (items : Table) (s : RenderState) (p : String × FlowEvent),
      p ∈ items → check_flow A p.2 = some true → p.2.reply.l4_dport = none →
      genLoop A extra items s = none := by
  intro items
  induction items with
  | nil => intro s p hmem; exact absurd hmem (by simp)
  | cons q rest ih =>
    intro s p hmem hcfp hdpp
    obtain ⟨i, f⟩ := q
    rcases List.mem_cons.mp hmem with hqp | htail
    · subst hqp
      simp only at hcfp hdpp
      simp only [genLoop, hcfp, hdpp]
    · cases hcf : check_flow A f with
      | none => simp [genLoop, hcf]
      | some b =>
        cases b with
        | false =>
          simp only [genLoop, hcf]
          exact ih s p htail hcfp hdpp
        | true =>
          cases hdp : f.reply.l4_dport with
          | none => simp [genLoop, hcf, hdp]
          | some dport =>
            simp only [genLoop, hcf, hdp]
            by_cases hmem2 : s.listened_addresses.contains (f.reply.l3_dst ++ ":" ++ dport) = true
            · rw [if_pos hmem2]
              exact ih s p htail hcfp hdpp
            · rw [if_neg hmem2]
              cases hsp : f.original.l4_sport with
              | none => simp
              | some sport =>
                simp only
                exact ih _ p htail hcfp hdpp

/-- C10 (amended): rendering is total when no table entry makes
`check_flow` raise and every eligible entry carries both ports; and any
eligible entry whose reply destination port is missing makes the render
raise.  (An eligible entry missing only the original source port raises
only if it survives the dedup check, which runs before the source port is
read — see the counterexample.) -/
theorem render_port_totality (A : List IPNetwork) (extra : String) :
    (∀ tbl : Table, (∀ p ∈ tbl, check_flow A p.2 ≠ none) →
       (∀ p ∈ tbl, check_flow A p.2 = some true →
          p.2.reply.l4_dport.isSome = true ∧ p.2.original.l4_sport.isSome = true) →
       (generate_conf_of_table A extra tbl).isSome = true)
    ∧ (∀ (tbl : Table) (p : String × FlowEvent), p ∈ tbl →
         check_flow A p.2 = some true → p.2.reply.l4_dport = none →
         generate_conf_of_table A extra tbl = none) := by
  constructor
  · intro tbl hok hp
    obtain ⟨seen', hgl⟩ := genLoop_render_spec A extra tbl tbl [] [] hok hp
    rw [generate_conf_of_table_eq, hgl]
    rfl
  · intro tbl p hmem hcf hdp
    rw [generate_conf_of_table_eq, genLoop_missing_dport A extra tbl ⟨tbl, [], []⟩ p hmem hcf hdp]
    rfl

/-- An eligible flow colliding with flow 7's listen endpoint whose
original source port is missing. -/
def missingSportFlow : FlowEvent :=
  ⟨"2", "new",
   ⟨"ipv4", "10.0.0.7", "203.0.113.9", "tcp", none, some "80"⟩,
   ⟨"ipv4", "203.0.113.9", "198.51.100.1", "tcp", some "80", some "51000"⟩⟩

/-- A flow whose fields pass the protocol checks but whose original
source address does not parse as IPv4, so `check_flow` raises; all its
port fields are present. -/
def badAddrFlow : FlowEvent :=
  ⟨"3", "new",
   ⟨"ipv4", "bogus", "203.0.113.9", "tcp", some "1", some "2"⟩,
   ⟨"ipv4", "203.0.113.9", "198.51.100.9", "tcp", some "2", some "1"⟩⟩

/-- Counterexample to C10 as stated, in two parts.  First: an eligible
entry with a missing original source port does not make the render raise
when an earlier entry already claimed its listen endpoint — the dedup
check runs before the source port is read, so the entry is silently
skipped and rendering succeeds.  Second: the render can raise even when
every entry satisfying the eligibility predicate carries both ports —
an entry on which the eligibility check itself raises (unparseable
source address) aborts the render although it is not eligible and all
its ports are present. -/
theorem render_port_counterexample :
    check_flow [allowNet24] missingSportFlow = some true
    ∧ missingSportFlow.original.l4_sport = none
    ∧ (generate_conf_of_table [allowNet24] ""
        [("7", newEvent7), ("2", missingSportFlow)]).isSome = true
    ∧ check_flow [allowNet24] badAddrFlow = none
    ∧ badAddrFlow.reply.l4_dport.isSome = true
    ∧ badAddrFlow.original.l4_sport.isSome = true
    ∧ generate_conf_of_table [allowNet24] "" [("3", badAddrFlow)] = none := by
  decide

/-- Witness for C10: the totality half applied to the one-entry table for
flow 7, and the missing-dport half applied to a concrete eligible entry
without a reply destination port. -/
theorem render_port_totality_witness :
    (generate_conf_of_table [allowNet24] "" [("7", newEvent7)]).isSome = true
    ∧ generate_conf_of_table [allowNet24] ""
        [("8", ⟨"8", "new", newEvent7.original,
          ⟨"ipv4", "203.0.113.9", "198.51.100.1", "tcp", some "80", none⟩⟩)] = none := by
  constructor
  · exact (render_port_totality [allowNet24] "").1 [("7", newEvent7)] (by decide) (by decide)
  · exact (render_port_totality [allowNet24] "").2
      [("8", ⟨"8", "new", newEvent7.original,
        ⟨"ipv4", "203.0.113.9", "198.51.100.1", "tcp", some "80", none⟩⟩)]
      ("8", ⟨"8", "new", newEvent7.original,
        ⟨"ipv4", "203.0.113.9", "198.51.100.1", "tcp", some "80", none⟩⟩)
      (by decide) (by decide) (by decide)

/-- An explicit file system: path to content. -/
structure FileSystem where
  files : String → Option String

/-- Writing a file: `open(p, "w")` followed by `f.write(content)`. -/
def fsWrite (fs : FileSystem) (p content : String) : FileSystem :=
  ⟨fun q => if q = p then some content else fs.files q⟩

/-- `os.rename(src, dst)`: one atomic step that moves the complete content
of `src` onto `dst`. -/
def fsRename (fs : FileSystem) (src dst : String) : FileSystem :=
  ⟨fun q => if q = src then none else if q = dst then fs.files src else fs.files q⟩

/-- The commit sequence of `flow_table_updated` (after the render): write
the text to `config_file_path + ".tmp"`, rename it onto
`config_file_path`, then `subprocess.Popen(reload_execv)`.  Fault
parameters model OS failures: `writeFault = some frag` is a write that
fails after putting partial content `frag` in the temp file;
`renameFault` is a failed rename; `launchFault` is `Popen` raising
(e.g. `FileNotFoundError` when the reload executable cannot be started —
the exception is raised in the parent and is not caught).  An `error`
result carries the file-system state at the uncaught exception. -/
def commit (path text : String) (reload : List String) (writeFault : Option String)
    (renameFault launchFault : Bool) (fs : FileSystem) : Except FileSystem FileSystem :=
  match writeFault with
  | some frag => .error (fsWrite fs (path ++ ".tmp") frag)
  | none =>
    let fs1 := fsWrite fs (path ++ ".tmp") text
    if renameFault then .error fs1
    else
      let fs2 := fsRename fs1 (path ++ ".tmp") path
      if launchFault then .error fs2 else .ok fs2

/-- The sequence of file-system states the commit passes through (up to
the rename; the reload launch does not touch the file system). -/
def commitStates (path text : String) (writeFault : Option String) (renameFault : Bool)
    (fs : FileSystem) : List FileSystem :=
  match writeFault with
  | some frag => [fs, fsWrite fs (path ++ ".tmp") frag]
  | none =>
    let fs1 := fsWrite fs (path ++ ".tmp") text
    if renameFault then [fs, fs1]
    else [fs, fs1, fsRename fs1 (path ++ ".tmp") path]

/-- True iff the commit raised. -/
def isCommitError : Except FileSystem FileSystem → Bool
  | .error _ => true
  | .ok _ => false

/-- The file-system state a commit left behind, raised or not. -/
def commitResultFS : Except FileSystem FileSystem → FileSystem
  | .error f => f
  | .ok f => f

lemma path_ne_tmp (p : String) : p ≠ p ++ ".tmp" := by
  intro h
  have hlen := congrArg String.length h
  rw [String.length_append] at hlen
  have h4 : (".tmp" : String).length = 4 := rfl
  rw [h4] at hlen
  omega

/-- C7: the commit writes the complete text to the colocated temporary
path and only then renames it onto the target, so at every intermediate
state the target holds either its previous content or the complete new
text (never a partial write); a fault-free commit succeeds and leaves the
complete text at the target; and a write or rename failure surfaces as an
error with the target's previous content still in place. -/
theorem commit_atomic_replace (path text : String) (reload : List String)
    (writeFault : Option String) (renameFault : Bool) (fs : FileSystem) :
    ((commitStates path text writeFault renameFault fs).all
        (fun st => (st.files path == fs.files path) || (st.files path == some text)) = true)
    ∧ isCommitError (commit path text reload none false false fs) = false
    ∧ (commitResultFS (commit path text reload none false false fs)).files path = some text
    ∧ (∀ frag : String,
        isCommitError (commit path text reload (some frag) renameFault false fs) = true
        ∧ (commitResultFS (commit path text reload (some frag) renameFault false fs)).files path
            = fs.files path)
    ∧ isCommitError (commit path text reload none true false fs) = true
    ∧ (commitResultFS (commit path text reload none true false fs)).files path = fs.files path := by
  have hne : ¬ (path = path ++ ".tmp") := path_ne_tmp path
  refine ⟨?_, rfl, ?_, ?_, rfl, ?_⟩
  · cases writeFault with
    | some frag =>
      simp [commitStates, fsWrite, hne]
    | none =>
      cases renameFault with
      | true => simp [commitStates, fsWrite, hne]
      | false => simp [commitStates, fsWrite, fsRename, hne]
  · simp [commit, commitResultFS, fsRename, fsWrite, hne]
  · intro frag
    exact ⟨rfl, by simp [commit, commitResultFS, fsWrite, hne]⟩
  · simp [commit, commitResultFS, fsWrite, hne]

/-- C8 (amended): when the write and rename succeed and the reload
process launches, the commit completes without error; the reload
command's argument vector never influences the commit's outcome, and the
reload's exit status and output are not modelled at all (fire and
forget).  But when launching the reload raises, the exception propagates
out of the commit — with the renamed configuration already in place. -/
theorem commit_reload_detached (path text : String) (r1 r2 : List String)
    (fs : FileSystem) :
    isCommitError (commit path text r1 none false false fs) = false
    ∧ commit path text r1 none false false fs = commit path text r2 none false false fs
    ∧ isCommitError (commit path text r1 none false true fs) = true
    ∧ commitResultFS (commit path text r1 none false true fs)
        = commitResultFS (commit path text r1 none false false fs) := by
  exact ⟨rfl, rfl, rfl, rfl⟩

/-- The empty file system. -/
def fs0 : FileSystem := ⟨fun _ => none⟩

/-- Counterexample to C8 as stated: a commit whose write and rename
succeed but whose reload launch fails does not complete cleanly — the
`Popen` exception propagates to the caller (`subprocess.Popen` raises in
the parent when the executable cannot be started, and
`flow_table_updated` does not catch it). -/
theorem commit_launch_fail_raises :
    isCommitError (commit "nginx.conf" "x" ["reload"] none false true fs0) = true := rfl

/-- The raw XML view of one direction that `L3L4.__init__` reads: each
field is the text/attribute of an element that may be missing. -/
structure RawL3L4 where
  l3_protoname : Option String
  l3_src : Option String
  l3_dst : Option String
  l4_protoname : Option String
  l4_sport : Option String
  l4_dport : Option String
deriving DecidableEq, Repr

/-- The raw XML view of one flow-change record that `FlowEvent.__init__`
reads. -/
structure RawFlowRecord where
  original : Option RawL3L4
  reply : Option RawL3L4
  flowId : Option String
  eventType : Option String
deriving DecidableEq, Repr

/-- `L3L4.__init__`: the four protocol/address fields are required (a
missing one raises, modelled as `none`).  The ports are read inside
`try/except AttributeError: pass`: a missing `sport` aborts before
`dport` is read, so both stay absent; a missing `dport` leaves `sport`
assigned. -/
def decodeL3L4 (x : RawL3L4) : Option L3L4 :=
  match x.l3_protoname, x.l3_src, x.l3_dst, x.l4_protoname with
  | some p3, some s3, some d3, some p4 =>
    match x.l4_sport, x.l4_dport with
    | some sp, some dp => some ⟨p3, s3, d3, p4, some sp, some dp⟩
    | some sp, none => some ⟨p3, s3, d3, p4, some sp, none⟩
    | none, _ => some ⟨p3, s3, d3, p4, none, none⟩
  | _, _, _, _ => none

/-- `FlowEvent.__init__`: both directions, the id text and the type
attribute are required. -/
def decodeFlowEvent (r : RawFlowRecord) : Option FlowEvent :=
  match r.original, r.reply, r.flowId, r.eventType with
  | some o, some rp, some i, some t =>
    match decodeL3L4 o, decodeL3L4 rp with
    | some oo, some rr => some ⟨i, t, oo, rr⟩
    | _, _ => none
  | _, _, _, _ => none

/-- C9: for every raw record carrying the required fields (flow id, event
kind, both directions' protocol names and addresses), decoding succeeds
whatever the port elements, and the decoded event leaves missing port
fields absent.  Concretely: with the required fields present, the result
is `some`, the decoded source port equals the raw one, and the decoded
destination port is the raw one if the source port was present and absent
otherwise (the `except AttributeError: pass` skips the rest of the port
block). -/
theorem decode_ports_best_effort (p3 s3 d3 p4 q3 t3 u3 q4 i ty : String)
    (sp dp sp2 dp2 : Option String) :
    decodeFlowEvent
        ⟨some ⟨some p3, some s3, some d3, some p4, sp, dp⟩,
         some ⟨some q3, some t3, some u3, some q4, sp2, dp2⟩,
         some i, some ty⟩ =
      some ⟨i, ty,
        ⟨p3, s3, d3, p4, sp, match sp with | none => none | some _ => dp⟩,
        ⟨q3, t3, u3, q4, sp2, match sp2 with | none => none | some _ => dp2⟩⟩ := by
  cases sp <;> cases dp <;> cases sp2 <;> cases dp2 <;> rfl
